import Mathlib

set_option maxRecDepth 100000

/-!
Verification of the Miphira Object Storage Go client SDK (package `sdk`,
file `client.go`).

The development shallowly embeds the presigned-URL signer: bytes are natural
numbers below 256, strings are Lean strings (UTF-8 encoded to bytes where the
Go code converts a string to a byte slice), machine words are naturals reduced
modulo 2^32, and the wall clock is passed explicitly as a unix-nanosecond
integer, mirroring Go's time values.
-/

namespace MiphiraSdk

/-! ## Bytes and UTF-8 -/

/-- UTF-8 encoding of a single character, as a list of bytes.
This models Go's string-to-byte-slice conversion for one rune. -/
def utf8Bytes (c : Char) : List Nat :=
  let n := c.toNat
  if n < 128 then [n]
  else if n < 2048 then [192 ||| (n >>> 6), 128 ||| (n &&& 63)]
  else if n < 65536 then
    [224 ||| (n >>> 12), 128 ||| ((n >>> 6) &&& 63), 128 ||| (n &&& 63)]
  else
    [240 ||| (n >>> 18), 128 ||| ((n >>> 12) &&& 63),
     128 ||| ((n >>> 6) &&& 63), 128 ||| (n &&& 63)]

/-- The UTF-8 bytes of a string; models Go's `[]byte(s)`. -/
def strBytes (s : String) : List Nat :=
  (s.data.map utf8Bytes).flatten

/-! ## Decimal rendering

Models Go's `fmt.Sprintf` verb `%d` on an `int64` value. -/

/-- Decimal digits of a natural number, most significant first; the first
argument is recursion fuel (any fuel larger than the number suffices). -/
def natDecAux : Nat → Nat → List Char
  | 0, _ => []
  | fuel + 1, n =>
    if n < 10 then [Nat.digitChar n]
    else natDecAux fuel (n / 10) ++ [Nat.digitChar (n % 10)]

/-- Decimal digits of a natural number, most significant first. -/
def natDec (n : Nat) : List Char :=
  natDecAux (n + 1) n

/-- Decimal rendering of an integer, as Go's `%d` prints an `int64`:
a minus sign for negative values, plain digits otherwise. -/
def intDec (i : Int) : String :=
  if i < 0 then "-" ++ String.mk (natDec i.natAbs) else String.mk (natDec i.natAbs)

/-! ## SHA-256 (crypto/sha256) -/

/-- The 64 SHA-256 round constants. -/
def shaK : List Nat :=
  [1116352408, 1899447441, 3049323471, 3921009573, 961987163, 1508970993,
  2453635748, 2870763221, 3624381080, 310598401, 607225278, 1426881987,
  1925078388, 2162078206, 2614888103, 3248222580, 3835390401, 4022224774,
  264347078, 604807628, 770255983, 1249150122, 1555081692, 1996064986,
  2554220882, 2821834349, 2952996808, 3210313671, 3336571891, 3584528711,
  113926993, 338241895, 666307205, 773529912, 1294757372, 1396182291,
  1695183700, 1986661051, 2177026350, 2456956037, 2730485921, 2820302411,
  3259730800, 3345764771, 3516065817, 3600352804, 4094571909, 275423344,
  430227734, 506948616, 659060556, 883997877, 958139571, 1322822218,
  1537002063, 1747873779, 1955562222, 2024104815, 2227730452, 2361852424,
  2428436474, 2756734187, 3204031479, 3329325298]

/-- The initial SHA-256 hash state. -/
def shaH0 : List Nat :=
  [1779033703, 3144134277, 1013904242, 2773480762,
   1359893119, 2600822924, 528734635, 1541459225]

/-- Right rotation of a 32-bit word. -/
def rotr (n x : Nat) : Nat :=
  ((x >>> n) ||| (x <<< (32 - n))) % 4294967296

def shaCh (e f g : Nat) : Nat := (e &&& f) ^^^ ((4294967295 - e) &&& g)

def shaMaj (a b c : Nat) : Nat := (a &&& b) ^^^ (a &&& c) ^^^ (b &&& c)

def bsig0 (x : Nat) : Nat := rotr 2 x ^^^ rotr 13 x ^^^ rotr 22 x

def bsig1 (x : Nat) : Nat := rotr 6 x ^^^ rotr 11 x ^^^ rotr 25 x

def ssig0 (x : Nat) : Nat := rotr 7 x ^^^ rotr 18 x ^^^ (x >>> 3)

def ssig1 (x : Nat) : Nat := rotr 17 x ^^^ rotr 19 x ^^^ (x >>> 10)

/-- Big-endian packing of bytes into 32-bit words. -/
def bytesToWords : List Nat → List Nat
  | a :: b :: c :: d :: rest =>
    ((a <<< 24) ||| (b <<< 16) ||| (c <<< 8) ||| d) :: bytesToWords rest
  | _ => []

/-- Big-endian unpacking of a 32-bit word into four bytes. -/
def wordToBytes (w : Nat) : List Nat :=
  [(w >>> 24) % 256, (w >>> 16) % 256, (w >>> 8) % 256, w % 256]

/-- Extends the 16-word message schedule by the given number of words. -/
def extendW : Nat → List Nat → List Nat
  | 0, w => w
  | fuel + 1, w =>
    let i := w.length
    let x := (ssig1 (w.getD (i - 2) 0) + w.getD (i - 7) 0 +
              ssig0 (w.getD (i - 15) 0) + w.getD (i - 16) 0) % 4294967296
    extendW fuel (w ++ [x])

/-- One SHA-256 compression round on the eight-word working state. -/
def shaStep (st : List Nat) (kw : Nat × Nat) : List Nat :=
  match st with
  | [a, b, c, d, e, f, g, h] =>
    let t1 := (h + bsig1 e + shaCh e f g + kw.fst + kw.snd) % 4294967296
    let t2 := (bsig0 a + shaMaj a b c) % 4294967296
    [(t1 + t2) % 4294967296, a, b, c, (d + t1) % 4294967296, e, f, g]
  | _ => st

/-- Processes one 64-byte block into the running hash state. -/
def processBlock (hs : List Nat) (block : List Nat) : List Nat :=
  let w := extendW 48 (bytesToWords block)
  let st := (shaK.zip w).foldl shaStep hs
  (hs.zip st).map (fun p => (p.fst + p.snd) % 4294967296)

/-- The eight-byte big-endian rendering of the message bit length. -/
def lenBytes64 (n : Nat) : List Nat :=
  [(n >>> 56) % 256, (n >>> 48) % 256, (n >>> 40) % 256, (n >>> 32) % 256,
   (n >>> 24) % 256, (n >>> 16) % 256, (n >>> 8) % 256, n % 256]

/-- SHA-256 padding: a 0x80 byte, zeros to 56 mod 64, then the bit length. -/
def padMsg (msg : List Nat) : List Nat :=
  let L := msg.length
  msg ++ [128] ++ List.replicate ((119 - L % 64) % 64) 0 ++ lenBytes64 (8 * L)

/-- Splits a byte list into 64-byte chunks; the first argument is fuel. -/
def chunksAux : Nat → List Nat → List (List Nat)
  | 0, _ => []
  | _ + 1, [] => []
  | fuel + 1, l => l.take 64 :: chunksAux fuel (l.drop 64)

/-- The SHA-256 digest (32 bytes) of a byte message. -/
def sha256 (msg : List Nat) : List Nat :=
  let p := padMsg msg
  let hs := (chunksAux p.length p).foldl processBlock shaH0
  (hs.map wordToBytes).flatten

/-! ## HMAC (crypto/hmac) -/

/-- HMAC-SHA256 of a message under a key, per RFC 2104 with the 64-byte
SHA-256 block size, as `hmac.New(sha256.New, key)` computes it. -/
def hmacSha256 (key msg : List Nat) : List Nat :=
  let k0 := if 64 < key.length then sha256 key else key
  let kp := k0 ++ List.replicate (64 - k0.length) 0
  let ipad := kp.map (fun b => b ^^^ 54)
  let opad := kp.map (fun b => b ^^^ 92)
  sha256 (opad ++ sha256 (ipad ++ msg))

/-! ## URL-safe base64 (encoding/base64, URLEncoding) -/

/-- The URL-safe base64 alphabet, with minus and underscore at 62 and 63. -/
def b64Alphabet : List Char :=
  "ABCDEFGHIJKLMNOPQRSTUVWXYZabcdefghijklmnopqrstuvwxyz0123456789-_".data

/-- The base64 character for a 6-bit value. -/
def b64c (n : Nat) : Char := b64Alphabet.getD n 'A'

/-- Base64 characters of a byte list, three input bytes to four output
characters, with trailing `=` padding as Go's `base64.URLEncoding` emits. -/
def b64Chars : List Nat → List Char
  | b1 :: b2 :: b3 :: rest =>
    let n := (b1 <<< 16) ||| (b2 <<< 8) ||| b3
    b64c (n >>> 18) :: b64c ((n >>> 12) % 64) :: b64c ((n >>> 6) % 64) ::
      b64c (n % 64) :: b64Chars rest
  | [b1, b2] =>
    let n := (b1 <<< 16) ||| (b2 <<< 8)
    [b64c (n >>> 18), b64c ((n >>> 12) % 64), b64c ((n >>> 6) % 64), '=']
  | [b1] =>
    let n := b1 <<< 16
    [b64c (n >>> 18), b64c ((n >>> 12) % 64), '=', '=']
  | [] => []

/-- URL-safe base64 encoding with padding; models
`base64.URLEncoding.EncodeToString`. -/
def base64urlEncode (bs : List Nat) : String :=
  String.mk (b64Chars bs)

/-! ## Query escaping (net/url QueryEscape) -/

/-- Uppercase hexadecimal digit for a value below 16. -/
def hexDigitU (n : Nat) : Char := "0123456789ABCDEF".data.getD n '0'

/-- Bytes Go's query escaping leaves untouched: ASCII alphanumerics and
minus, period, underscore, tilde. -/
def isUnreservedByte (b : Nat) : Bool :=
  (65 ≤ b && b ≤ 90) || (97 ≤ b && b ≤ 122) || (48 ≤ b && b ≤ 57) ||
  b == 45 || b == 46 || b == 95 || b == 126

/-- Query escaping of one byte: unreserved bytes pass through, a space
becomes a plus, anything else becomes percent and two uppercase hex digits. -/
def escByte (b : Nat) : List Char :=
  if isUnreservedByte b then [Char.ofNat b]
  else if b == 32 then ['+']
  else ['%', hexDigitU (b / 16), hexDigitU (b % 16)]

/-- Models Go's `url.QueryEscape`: escapes the UTF-8 bytes of the string. -/
def queryEscape (s : String) : String :=
  String.mk ((strBytes s).map escByte).flatten

/-! ## The client (client.go) -/

/-- The client configuration, as the Go `Client` struct. -/
structure Client where
  BaseURL : String
  ProjectID : String
  BucketName : String
  AccessKey : String
  SecretKey : String
deriving DecidableEq, Repr

/-- Models `sdk.NewClient`. -/
def NewClient (baseURL projectID bucketName accessKey secretKey : String) : Client :=
  { BaseURL := baseURL, ProjectID := projectID, BucketName := bucketName,
    AccessKey := accessKey, SecretKey := secretKey }

/-- The canonical string to sign, built exactly as the Go code's
`fmt.Sprintf` with verbs `%s`, `%s`, `%d` joined by newlines. -/
def stringToSign (method path : String) (expires : Int) : String :=
  method ++ "\n" ++ path ++ "\n" ++ intDec expires

/-- Models `Client.GenerateSignature`: URL-safe base64 of the HMAC-SHA256 of
the canonical string, keyed by the secret key's bytes. -/
def GenerateSignature (c : Client) (method path : String) (expires : Int) : String :=
  base64urlEncode (hmacSha256 (strBytes c.SecretKey)
    (strBytes (stringToSign method path expires)))

/-- Unix seconds of the instant `nowNano + durationNano`, as Go's
`time.Now().Add(d).Unix()` computes it: floor division by one billion. -/
def unixExpires (nowNano durationNano : Int) : Int :=
  Int.fdiv (nowNano + durationNano) 1000000000

/-- Models `Client.GeneratePresignedURL`. The wall clock and the duration are
explicit unix-nanosecond integers; the Go code reads the clock itself. -/
def GeneratePresignedURL (c : Client) (method path : String)
    (nowNano durationNano : Int) : String :=
  let expires := unixExpires nowNano durationNano
  let signature := GenerateSignature c method path expires
  c.BaseURL ++ path ++ "?X-Mos-AccessKey=" ++ c.AccessKey ++
    "&X-Mos-Expires=" ++ intDec expires ++
    "&X-Mos-Signature=" ++ queryEscape signature

/-- Models `Client.GetObjectURL`. -/
def GetObjectURL (c : Client) (filename : String)
    (nowNano durationNano : Int) : String :=
  GeneratePresignedURL c "GET"
    ("/api/v1/projects/" ++ c.ProjectID ++ "/buckets/" ++ c.BucketName ++
      "/objects/" ++ filename) nowNano durationNano

/-- Models `Client.UploadObjectURL`. -/
def UploadObjectURL (c : Client) (nowNano durationNano : Int) : String :=
  GeneratePresignedURL c "POST"
    ("/api/v1/projects/" ++ c.ProjectID ++ "/buckets/" ++ c.BucketName ++
      "/objects") nowNano durationNano

/-- Models `Client.DeleteObjectURL`. -/
def DeleteObjectURL (c : Client) (filename : String)
    (nowNano durationNano : Int) : String :=
  GeneratePresignedURL c "DELETE"
    ("/api/v1/projects/" ++ c.ProjectID ++ "/buckets/" ++ c.BucketName ++
      "/objects/" ++ filename) nowNano durationNano

/-- Models `Client.GetPublicObjectURL`. -/
def GetPublicObjectURL (c : Client) (filename : String) : String :=
  c.BaseURL ++ "/api/v1/public/projects/" ++ c.ProjectID ++ "/buckets/" ++
    c.BucketName ++ "/" ++ filename

/-! ## State-passing forms of the client operations

Each Go method takes a pointer receiver, reads its fields and assigns none,
so its state-passing translation returns the receiver unchanged alongside
the produced string. -/

/-- State-passing form of `GenerateSignature`. -/
def GenerateSignatureS (c : Client) (method path : String) (expires : Int) :
    Client × String :=
  (c, GenerateSignature c method path expires)

/-- State-passing form of `GeneratePresignedURL`. -/
def GeneratePresignedURLS (c : Client) (method path : String)
    (nowNano durationNano : Int) : Client × String :=
  (c, GeneratePresignedURL c method path nowNano durationNano)

/-- State-passing form of `GetObjectURL`. -/
def GetObjectURLS (c : Client) (filename : String)
    (nowNano durationNano : Int) : Client × String :=
  (c, GetObjectURL c filename nowNano durationNano)

/-- State-passing form of `UploadObjectURL`. -/
def UploadObjectURLS (c : Client) (nowNano durationNano : Int) :
    Client × String :=
  (c, UploadObjectURL c nowNano durationNano)

/-- State-passing form of `DeleteObjectURL`. -/
def DeleteObjectURLS (c : Client) (filename : String)
    (nowNano durationNano : Int) : Client × String :=
  (c, DeleteObjectURL c filename nowNano durationNano)

/-- State-passing form of `GetPublicObjectURL`. -/
def GetPublicObjectURLS (c : Client) (filename : String) : Client × String :=
  (c, GetPublicObjectURL c filename)

/-! ## Example clients used by the witness theorems -/

/-- The spec's example client. -/
def cEx1 : Client :=
  NewClient "https://storage.example.com" "proj1" "images" "MOS_test" "secret123"

/-- A client agreeing with `cEx1` on base URL, project and bucket but with
different keys. -/
def cEx2 : Client :=
  NewClient "https://storage.example.com" "proj1" "images" "MOS_other" "other-secret"

/-- A client agreeing with `cEx1` only on the secret key. -/
def cEx3 : Client :=
  NewClient "https://example.org" "p2" "b2" "AK2" "secret123"

/-- A client differing from `cEx1` solely in the secret key. -/
def cEx4 : Client :=
  NewClient "https://storage.example.com" "proj1" "images" "MOS_test" "other-secret"

/-! ## Lemmas on the decimal rendering -/

/-- The numeric value of a most-significant-first list of decimal digits. -/
def valDigits (l : List Char) : Nat :=
  l.foldl (fun a c => 10 * a + (c.toNat - 48)) 0

theorem digitChar_toNat : ∀ m, m < 10 → (Nat.digitChar m).toNat = 48 + m := by
  decide

theorem digitChar_isDigit : ∀ m, m < 10 → (Nat.digitChar m).isDigit = true := by
  decide

theorem digitChar_ne_zero : ∀ m, m < 10 → 0 < m → Nat.digitChar m ≠ '0' := by
  decide

theorem natDecAux_ne_nil : ∀ fuel n, n < fuel → natDecAux fuel n ≠ [] := by
  intro fuel n h
  match fuel with
  | 0 => omega
  | fuel + 1 =>
    unfold natDecAux
    split
    · simp
    · simp

theorem isDigit_of_mem_natDecAux :
    ∀ fuel n c, c ∈ natDecAux fuel n → c.isDigit = true := by
  intro fuel
  induction fuel with
  | zero => intro n c hc; simp [natDecAux] at hc
  | succ fuel ih =>
    intro n c hc
    unfold natDecAux at hc
    by_cases h : n < 10
    · rw [if_pos h] at hc
      simp at hc
      subst hc
      exact digitChar_isDigit n h
    · rw [if_neg h] at hc
      rcases List.mem_append.1 hc with h1 | h2
      · exact ih _ _ h1
      · simp at h2
        subst h2
        exact digitChar_isDigit _ (Nat.mod_lt _ (by omega))

theorem valDigits_natDecAux :
    ∀ fuel n, n < fuel → valDigits (natDecAux fuel n) = n := by
  intro fuel
  induction fuel with
  | zero => intro n h; omega
  | succ fuel ih =>
    intro n h
    unfold natDecAux
    by_cases h10 : n < 10
    · rw [if_pos h10]
      simp [valDigits]
      rw [digitChar_toNat n h10]
      omega
    · rw [if_neg h10]
      have hdiv : n / 10 < fuel := by omega
      have hv := ih (n / 10) hdiv
      simp only [valDigits, List.foldl_append, List.foldl_cons, List.foldl_nil] at hv ⊢
      rw [hv, digitChar_toNat (n % 10) (Nat.mod_lt _ (by omega))]
      omega

theorem natDec_inj {a b : Nat} (h : natDec a = natDec b) : a = b := by
  have ha := valDigits_natDecAux (a + 1) a (by omega)
  have hb := valDigits_natDecAux (b + 1) b (by omega)
  unfold natDec at h
  rw [h, hb] at ha
  omega

theorem head_natDecAux_ne_zero :
    ∀ fuel n, n < fuel → 0 < n → (natDecAux fuel n).head? ≠ some '0' := by
  intro fuel
  induction fuel with
  | zero => intro n h; omega
  | succ fuel ih =>
    intro n h hn
    unfold natDecAux
    by_cases h10 : n < 10
    · rw [if_pos h10]
      simp only [List.head?_cons, ne_eq, Option.some.injEq]
      exact digitChar_ne_zero n h10 hn
    · rw [if_neg h10]
      have h1 : n / 10 < fuel := by omega
      have h2 : 0 < n / 10 := by omega
      have h3 := ih (n / 10) h1 h2
      obtain ⟨b, L, hbl⟩ := List.exists_cons_of_ne_nil (natDecAux_ne_nil fuel (n / 10) h1)
      rw [hbl] at h3 ⊢
      simpa using h3

theorem intDec_nonneg (e : Int) (he : 0 ≤ e) :
    intDec e = String.mk (natDec e.natAbs) := by
  unfold intDec
  rw [if_neg (by omega)]

theorem newline_not_mem_intDec (e : Int) (he : 0 ≤ e) :
    '\n' ∉ (intDec e).data := by
  rw [intDec_nonneg e he]
  intro hmem
  have hd := isDigit_of_mem_natDecAux (e.natAbs + 1) e.natAbs '\n' hmem
  exact absurd hd (by decide)

/-! ## Splitting lemmas for the canonical payload -/

theorem append_cons_inj_left {α : Type} {x : α} :
    ∀ (a₁ a₂ b₁ b₂ : List α), x ∉ a₁ → x ∉ a₂ →
      a₁ ++ x :: b₁ = a₂ ++ x :: b₂ → a₁ = a₂ ∧ b₁ = b₂ := by
  intro a₁
  induction a₁ with
  | nil =>
    intro a₂ b₁ b₂ h₁ h₂ h
    cases a₂ with
    | nil =>
      simp only [List.nil_append, List.cons.injEq] at h
      exact ⟨rfl, h.2⟩
    | cons y t =>
      simp only [List.nil_append, List.cons_append, List.cons.injEq] at h
      exact absurd (h.1 ▸ List.mem_cons_self y t) h₂
  | cons y t ih =>
    intro a₂ b₁ b₂ h₁ h₂ h
    cases a₂ with
    | nil =>
      simp only [List.nil_append, List.cons_append, List.cons.injEq] at h
      exact absurd (h.1 ▸ List.mem_cons_self y t) h₁
    | cons z t₂ =>
      simp only [List.cons_append, List.cons.injEq] at h
      have h₁' : x ∉ t := fun hx => h₁ (List.mem_cons_of_mem _ hx)
      have h₂' : x ∉ t₂ := fun hx => h₂ (List.mem_cons_of_mem _ hx)
      rcases ih t₂ b₁ b₂ h₁' h₂' h.2 with ⟨ht, hb⟩
      exact ⟨by rw [h.1, ht], hb⟩

theorem append_cons_inj_right {α : Type} {x : α} (a₁ a₂ b₁ b₂ : List α)
    (h₁ : x ∉ b₁) (h₂ : x ∉ b₂) (h : a₁ ++ x :: b₁ = a₂ ++ x :: b₂) :
    a₁ = a₂ ∧ b₁ = b₂ := by
  have hr := congrArg List.reverse h
  simp only [List.reverse_append, List.reverse_cons, List.append_assoc,
    List.singleton_append] at hr
  have h₁' : x ∉ b₁.reverse := by simpa using h₁
  have h₂' : x ∉ b₂.reverse := by simpa using h₂
  rcases append_cons_inj_left _ _ _ _ h₁' h₂' hr with ⟨hb, ha⟩
  exact ⟨List.reverse_inj.1 ha, List.reverse_inj.1 hb⟩

/-! ## The claims -/

/-- C1: for every client, method, path and integer expiry,
`GenerateSignature` returns exactly the URL-safe base64 encoding (padding
preserved) of the HMAC-SHA256 digest keyed with the raw UTF-8 bytes of the
secret key, applied once to the payload method, newline, path, newline,
decimal expiry with no trailing newline; and for positive expiry the decimal
rendering consists of digits only (hence no sign) with no leading zero. -/
theorem GenerateSignature_spec (c : Client) (method path : String) (e : Int) :
    GenerateSignature c method path e =
      base64urlEncode (hmacSha256 (strBytes c.SecretKey)
        (strBytes (method ++ "\n" ++ path ++ "\n" ++ intDec e))) ∧
    (0 < e → (∀ ch ∈ (intDec e).data, ch.isDigit = true) ∧
      (intDec e).data.head? ≠ some '0') := by
  refine ⟨rfl, fun he => ⟨?_, ?_⟩⟩
  · intro ch hch
    rw [intDec_nonneg e (le_of_lt he)] at hch
    exact isDigit_of_mem_natDecAux _ _ _ hch
  · rw [intDec_nonneg e (le_of_lt he)]
    exact head_natDecAux_ne_zero _ _ (by omega) (by omega)

/-- Witness for C1 at the example client, method GET, path /a and expiry 5. -/
theorem GenerateSignature_spec_witness :
    GenerateSignature cEx1 "GET" "/a" 5 =
      base64urlEncode (hmacSha256 (strBytes cEx1.SecretKey)
        (strBytes ("GET" ++ "\n" ++ "/a" ++ "\n" ++ intDec 5))) ∧
    ((∀ ch ∈ (intDec (5 : Int)).data, ch.isDigit = true) ∧
      (intDec (5 : Int)).data.head? ≠ some '0') :=
  ⟨(GenerateSignature_spec cEx1 "GET" "/a" 5).1,
   (GenerateSignature_spec cEx1 "GET" "/a" 5).2 (by decide)⟩

/-- C2: the spec's interoperability test vector. With secret key secret123,
the signature over GET, the a.jpg object path and expiry 1700000000 is the
URL-safe base64 HMAC-SHA256 of the exact newline-joined byte string, and its
concrete value is pinned bit-for-bit. -/
theorem GenerateSignature_testVector :
    GenerateSignature
        (NewClient "https://storage.example.com" "proj1" "images" "MOS_test" "secret123")
        "GET" "/api/v1/projects/proj1/buckets/images/objects/a.jpg" 1700000000 =
      base64urlEncode (hmacSha256 (strBytes "secret123")
        (strBytes "GET\n/api/v1/projects/proj1/buckets/images/objects/a.jpg\n1700000000")) ∧
    GenerateSignature
        (NewClient "https://storage.example.com" "proj1" "images" "MOS_test" "secret123")
        "GET" "/api/v1/projects/proj1/buckets/images/objects/a.jpg" 1700000000 =
      "JUtf2f7kkwivZkCNXXL-KDgroYZTNrGFmkrIi0XRgMQ=" := by
  constructor
  · have h : stringToSign "GET" "/api/v1/projects/proj1/buckets/images/objects/a.jpg" 1700000000 =
        "GET\n/api/v1/projects/proj1/buckets/images/objects/a.jpg\n1700000000" := by
      decide
    show base64urlEncode (hmacSha256 (strBytes "secret123")
        (strBytes (stringToSign "GET" "/api/v1/projects/proj1/buckets/images/objects/a.jpg" 1700000000))) = _
    rw [h]
  · decide

/-- C3: `GeneratePresignedURL` returns exactly the base URL, then the path
verbatim, then the three query parameters, with the expiry the floor of the
sum of clock and duration in whole seconds, the access key verbatim and the
signature percent-encoded. -/
theorem GeneratePresignedURL_spec (c : Client) (m p : String) (now d : Int) :
    GeneratePresignedURL c m p now d =
      c.BaseURL ++ p ++ "?X-Mos-AccessKey=" ++ c.AccessKey ++
        "&X-Mos-Expires=" ++ intDec (unixExpires now d) ++
        "&X-Mos-Signature=" ++
        queryEscape (GenerateSignature c m p (unixExpires now d)) :=
  rfl

/-- C4: `GetObjectURL` and `DeleteObjectURL` sign the object path containing
the filename segment exactly as given (methods GET and DELETE), while
`UploadObjectURL` signs the objects path with no filename segment
(method POST). -/
theorem objectURL_path_templates (c : Client) (filename : String) (now d : Int) :
    GetObjectURL c filename now d =
      GeneratePresignedURL c "GET"
        ("/api/v1/projects/" ++ c.ProjectID ++ "/buckets/" ++ c.BucketName ++
          "/objects/" ++ filename) now d ∧
    DeleteObjectURL c filename now d =
      GeneratePresignedURL c "DELETE"
        ("/api/v1/projects/" ++ c.ProjectID ++ "/buckets/" ++ c.BucketName ++
          "/objects/" ++ filename) now d ∧
    UploadObjectURL c now d =
      GeneratePresignedURL c "POST"
        ("/api/v1/projects/" ++ c.ProjectID ++ "/buckets/" ++ c.BucketName ++
          "/objects") now d :=
  ⟨rfl, rfl, rfl⟩

/-- C5: `GetPublicObjectURL` is pure concatenation with no query string and
no signature, and its output depends on no client field other than the base
URL, project id and bucket name; in particular neither key is used. -/
theorem GetPublicObjectURL_spec (c : Client) (filename : String) :
    GetPublicObjectURL c filename =
      c.BaseURL ++ "/api/v1/public/projects/" ++ c.ProjectID ++ "/buckets/" ++
        c.BucketName ++ "/" ++ filename ∧
    ∀ c₂ : Client, c.BaseURL = c₂.BaseURL → c.ProjectID = c₂.ProjectID →
      c.BucketName = c₂.BucketName →
      GetPublicObjectURL c filename = GetPublicObjectURL c₂ filename := by
  refine ⟨rfl, fun c₂ h1 h2 h3 => ?_⟩
  unfold GetPublicObjectURL
  rw [h1, h2, h3]

/-- Witness for C5 at two clients sharing base URL, project and bucket but
differing in both keys. -/
theorem GetPublicObjectURL_spec_witness :
    (cEx1.BaseURL = cEx2.BaseURL ∧ cEx1.ProjectID = cEx2.ProjectID ∧
      cEx1.BucketName = cEx2.BucketName) ∧
    GetPublicObjectURL cEx1 "f.jpg" = GetPublicObjectURL cEx2 "f.jpg" :=
  ⟨⟨rfl, rfl, rfl⟩, (GetPublicObjectURL_spec cEx1 "f.jpg").2 cEx2 rfl rfl rfl⟩

/-- C6 counterexample: at the malformed input with empty method, empty path
and zero expiry duration, `GeneratePresignedURL` does not fail fast; it
returns this complete signed URL. -/
theorem GeneratePresignedURL_no_failFast :
    GeneratePresignedURL
        (NewClient "https://storage.example.com" "proj1" "images" "MOS_test" "secret123")
        "" "" 0 0 =
      "https://storage.example.com?X-Mos-AccessKey=MOS_test&X-Mos-Expires=0&X-Mos-Signature=yFOz6vDEmjd0vF0Bd7HOOXudu_CulG2bGCwUHuYVUiQ%3D" := by
  decide

/-- C6 amended: `GeneratePresignedURL` performs no input validation; even
when the method is empty, the path is empty, or the expiry duration is zero
or negative, it still returns the assembled signed URL of the standard
shape. -/
theorem GeneratePresignedURL_malformed_returns_url (c : Client) (m p : String)
    (now d : Int) (_hmal : m = "" ∨ p = "" ∨ d ≤ 0) :
    GeneratePresignedURL c m p now d =
      c.BaseURL ++ p ++ "?X-Mos-AccessKey=" ++ c.AccessKey ++
        "&X-Mos-Expires=" ++ intDec (unixExpires now d) ++
        "&X-Mos-Signature=" ++
        queryEscape (GenerateSignature c m p (unixExpires now d)) :=
  rfl

/-- Witness for the amended C6 at empty method, empty path and zero
duration. -/
theorem GeneratePresignedURL_malformed_witness :
    (("" : String) = "" ∨ ("" : String) = "" ∨ (0 : Int) ≤ 0) ∧
    GeneratePresignedURL cEx1 "" "" 0 0 =
      cEx1.BaseURL ++ "" ++ "?X-Mos-AccessKey=" ++ cEx1.AccessKey ++
        "&X-Mos-Expires=" ++ intDec (unixExpires 0 0) ++
        "&X-Mos-Signature=" ++
        queryEscape (GenerateSignature cEx1 "" "" (unixExpires 0 0)) :=
  ⟨Or.inl rfl, GeneratePresignedURL_malformed_returns_url cEx1 "" "" 0 0 (Or.inl rfl)⟩

/-- C7: for two clients differing solely in the secret key, the two
presigned URLs share the entire prefix up to and including the
X-Mos-Signature key, a prefix built only from the base URL, path, access key
and expiry; they can differ only in the percent-encoded signature value, so
the secret key is never inserted into the URL. -/
theorem GeneratePresignedURL_secret_noninterference (c₁ c₂ : Client)
    (m p : String) (now d : Int)
    (hb : c₁.BaseURL = c₂.BaseURL) (_hpr : c₁.ProjectID = c₂.ProjectID)
    (_hbn : c₁.BucketName = c₂.BucketName) (ha : c₁.AccessKey = c₂.AccessKey) :
    GeneratePresignedURL c₁ m p now d =
      (c₁.BaseURL ++ p ++ "?X-Mos-AccessKey=" ++ c₁.AccessKey ++
        "&X-Mos-Expires=" ++ intDec (unixExpires now d) ++
        "&X-Mos-Signature=") ++
        queryEscape (GenerateSignature c₁ m p (unixExpires now d)) ∧
    GeneratePresignedURL c₂ m p now d =
      (c₁.BaseURL ++ p ++ "?X-Mos-AccessKey=" ++ c₁.AccessKey ++
        "&X-Mos-Expires=" ++ intDec (unixExpires now d) ++
        "&X-Mos-Signature=") ++
        queryEscape (GenerateSignature c₂ m p (unixExpires now d)) := by
  constructor
  · rfl
  · rw [hb, ha]
    rfl

/-- Witness for C7 at two clients differing solely in the secret key. -/
theorem GeneratePresignedURL_secret_noninterference_witness :
    (cEx1.BaseURL = cEx4.BaseURL ∧ cEx1.ProjectID = cEx4.ProjectID ∧
      cEx1.BucketName = cEx4.BucketName ∧ cEx1.AccessKey = cEx4.AccessKey) ∧
    (GeneratePresignedURL cEx1 "GET" "/a" 0 0 =
      (cEx1.BaseURL ++ "/a" ++ "?X-Mos-AccessKey=" ++ cEx1.AccessKey ++
        "&X-Mos-Expires=" ++ intDec (unixExpires 0 0) ++
        "&X-Mos-Signature=") ++
        queryEscape (GenerateSignature cEx1 "GET" "/a" (unixExpires 0 0)) ∧
    GeneratePresignedURL cEx4 "GET" "/a" 0 0 =
      (cEx1.BaseURL ++ "/a" ++ "?X-Mos-AccessKey=" ++ cEx1.AccessKey ++
        "&X-Mos-Expires=" ++ intDec (unixExpires 0 0) ++
        "&X-Mos-Signature=") ++
        queryEscape (GenerateSignature cEx4 "GET" "/a" (unixExpires 0 0))) :=
  ⟨⟨rfl, rfl, rfl, rfl⟩,
   GeneratePresignedURL_secret_noninterference cEx1 cEx4 "GET" "/a" 0 0
     rfl rfl rfl rfl⟩

/-- C8: the signature is a deterministic function of the secret key, method,
path and expiry: clients with identical secret keys yield identical
signatures on identical arguments, whatever their other fields. -/
theorem GenerateSignature_deterministic (c₁ c₂ : Client)
    (hs : c₁.SecretKey = c₂.SecretKey) (m p : String) (e : Int) :
    GenerateSignature c₁ m p e = GenerateSignature c₂ m p e := by
  unfold GenerateSignature
  rw [hs]

/-- Witness for C8 at two clients sharing only the secret key. -/
theorem GenerateSignature_deterministic_witness :
    cEx1.SecretKey = cEx3.SecretKey ∧
    GenerateSignature cEx1 "GET" "/a" 5 = GenerateSignature cEx3 "GET" "/a" 5 :=
  ⟨rfl, GenerateSignature_deterministic cEx1 cEx3 rfl "GET" "/a" 5⟩

/-- C9: every signer operation leaves the client record, and with it all five
credential fields, unchanged. -/
theorem client_ops_frame (c : Client) (m p f : String) (e now d : Int) :
    (GenerateSignatureS c m p e).fst = c ∧
    (GeneratePresignedURLS c m p now d).fst = c ∧
    (GetObjectURLS c f now d).fst = c ∧
    (UploadObjectURLS c now d).fst = c ∧
    (DeleteObjectURLS c f now d).fst = c ∧
    (GetPublicObjectURLS c f).fst = c :=
  ⟨rfl, rfl, rfl, rfl, rfl, rfl⟩

/-- C10: the canonical string-to-sign is injective on signing requests whose
methods contain no newline and whose expiries are non-negative: equal
payloads force equal methods, paths and expiries. -/
theorem stringToSign_injective (m₁ p₁ m₂ p₂ : String) (e₁ e₂ : Int)
    (hm₁ : '\n' ∉ m₁.data) (hm₂ : '\n' ∉ m₂.data)
    (he₁ : 0 ≤ e₁) (he₂ : 0 ≤ e₂)
    (h : stringToSign m₁ p₁ e₁ = stringToSign m₂ p₂ e₂) :
    m₁ = m₂ ∧ p₁ = p₂ ∧ e₁ = e₂ := by
  have hd := congrArg String.data h
  have hnl : ("\n" : String).data = ['\n'] := rfl
  simp only [stringToSign, String.data_append, hnl, List.append_assoc,
    List.cons_append, List.nil_append] at hd
  rcases append_cons_inj_left _ _ _ _ hm₁ hm₂ hd with ⟨hm, hrest⟩
  have hd₁ : '\n' ∉ (intDec e₁).data := newline_not_mem_intDec e₁ he₁
  have hd₂ : '\n' ∉ (intDec e₂).data := newline_not_mem_intDec e₂ he₂
  rcases append_cons_inj_right _ _ _ _ hd₁ hd₂ hrest with ⟨hp, hdec⟩
  refine ⟨String.ext hm, String.ext hp, ?_⟩
  rw [intDec_nonneg e₁ he₁, intDec_nonneg e₂ he₂] at hdec
  have habs : e₁.natAbs = e₂.natAbs := natDec_inj hdec
  omega

/-- Witness for C10 at newline-free methods and non-negative expiries. -/
theorem stringToSign_injective_witness :
    '\n' ∉ ("GET" : String).data ∧ (0 : Int) ≤ 5 ∧
    (("GET" : String) = "GET" ∧ ("/a" : String) = "/a" ∧ (5 : Int) = 5) :=
  ⟨by decide, by decide,
   stringToSign_injective "GET" "/a" "GET" "/a" 5 5 (by decide) (by decide)
     (by decide) (by decide) rfl⟩

end MiphiraSdk

